import Mathlib

/-!
Verification of `top_cache.py`: a mint-delay cache-stampede-prevention layer
over an external key-value store (the Django cache), plus a key-derivation
decorator.

The embedding is shallow: virtual time is an explicit `Int` parameter
(`datetime.datetime.now()`), the external store is an association list of
cells carrying a physical expiry instant, and the module-level functions
`set`, `get` and `func_wrapper` are translated directly from the source,
threading the store state explicitly.
-/

namespace TopCache

/-- A stored payload. `set` always writes the 3-tuple
`(value, refresh_time, refreshed)`; `malformed` models any other object an
external writer could have stored under the key, carrying only its Python
truthiness (a non-empty tuple is always truthy, so a well-formed pack never
takes this shape). Unpacking a truthy malformed payload raises. -/
inductive Payload (V : Type) where
  | packed (value : V) (refresh_time : Int) (refreshed : Bool)
  | malformed (truthy : Bool)
deriving DecidableEq

/-- A cell of the external store: the payload together with the absolute
instant at which the store physically evicts it (store time + physical TTL). -/
structure Cell (V : Type) where
  payload : Payload V
  expiry : Int
deriving DecidableEq

/-- The external store (the Django cache), modelled from its contract: a
key-value map with store-enforced physical expiration, holding at most one
cell per key. -/
def Store (V : Type) : Type := List (String × Cell V)

instance {V : Type} [DecidableEq V] : DecidableEq (Store V) :=
  inferInstanceAs (DecidableEq (List (String × Cell V)))

/-- Operation `cache.set(key, value, timeout)` of the external store: overwrites the
cell for `key` with physical expiry `now + timeout`. -/
def storeSet {V : Type} (s : Store V) (k : String) (p : Payload V)
    (now timeout : Int) : Store V :=
  (k, ⟨p, now + timeout⟩) :: s.filter (fun kv => kv.1 ≠ k)

/-- Operation `cache.get(key)` of the external store: the stored payload, or `none`
once the physical TTL has elapsed (the store evicts exactly at expiry). -/
def storeGet {V : Type} (s : Store V) (k : String) (now : Int) :
    Option (Payload V) :=
  match s.lookup k with
  | some c => if now < c.expiry then some c.payload else none
  | none => none

/-- Constant `DEFAULT_TIMEOUT = 60 * 3` from the source. -/
def DEFAULT_TIMEOUT : Int := 60 * 3

/-- Function `set(cache_key, value, timeout, refreshed)` from the source.
`MINT_DELAY` is the process-wide configuration constant
(`settings.MINT_DELAY` if set, else 30), passed explicitly; `now` is the
virtual clock. Computes `refresh_time = now + timeout`, packs
`(value, refresh_time, refreshed)` and stores it with physical TTL
`timeout + MINT_DELAY`. -/
def set {V : Type} (MINT_DELAY : Int) (s : Store V) (now : Int)
    (cache_key : String) (value : V) (timeout : Int) (refreshed : Bool) :
    Store V :=
  let refresh_time := now + timeout
  let mint_timeout := timeout + MINT_DELAY
  let packed_value := Payload.packed value refresh_time refreshed
  storeSet s cache_key packed_value now mint_timeout

/-- The error raised by `value, refresh_time, refreshed = packed_value` when
the stored payload is not a 3-sequence (TypeError / ValueError). -/
inductive GetError where
  | unpackError
deriving DecidableEq

/-- Function `get(cache_key)` from the source, returning the fetched value (`none`
is the absent sentinel `None`) together with the resulting store. A falsy
retrieved payload (`if not packed_value`) — absence, or a falsy malformed
object — yields `None`; a truthy malformed payload fails tuple unpacking;
a stale pack with `refreshed = False` is re-persisted for `MINT_DELAY` with
`refreshed = True` and `None` is returned; otherwise the value is returned. -/
def get {V : Type} (MINT_DELAY : Int) (s : Store V) (now : Int)
    (cache_key : String) : Except GetError (Option V × Store V) :=
  match storeGet s cache_key now with
  | none => .ok (none, s)
  | some (Payload.malformed t) =>
      if t then .error GetError.unpackError else .ok (none, s)
  | some (Payload.packed value refresh_time refreshed) =>
      if now > refresh_time ∧ ¬refreshed then
        .ok (none, set MINT_DELAY s now cache_key value MINT_DELAY true)
      else
        .ok (some value, s)

/-- A Python argument value as the key-derivation code observes it:
`str` is its `str()` rendering (what `'{0}_{1}'.format` interpolates) and
`className` is `value.__class__.__name__`. -/
structure PyVal where
  str : String
  className : String
deriving DecidableEq

/-- The pre-hash cache key built by `func_wrapper` (source lines 74–88):
starts from `func.__name__`; when `args` is non-empty and
`decorates_method` holds, prefixes the class name of `args[0]` (`self`) and
drops that first argument; then appends `_{arg}` for each remaining
positional argument and `_{key}={value}` for each keyword argument in
iteration order. -/
def cache_key_body (funcName : String) (decorates_method : Bool)
    (args : List PyVal) (kwargs : List (String × PyVal)) : String :=
  let cache_key := funcName
  let cache_key_args := args
  let (cache_key, cache_key_args) :=
    match args, decorates_method with
    | a0 :: rest, true => (a0.className ++ "_" ++ cache_key, rest)
    | _, _ => (cache_key, cache_key_args)
  let cache_key := cache_key_args.foldl (fun k a => k ++ "_" ++ a.str) cache_key
  let cache_key :=
    kwargs.foldl (fun k kv => k ++ "_" ++ kv.1 ++ "=" ++ kv.2.str) cache_key
  cache_key

/-- Modelled from the spec: the external `hashlib.md5(...).hexdigest()` is a
"fixed-output-length one-way hash (e.g., 128-bit digest, hex-encoded)". The
compression here is a simple deterministic 128-bit fold over the characters;
only determinism and the fixed 128-bit output width of the external hash are
relied upon. -/
def hash128 (s : String) : Nat :=
  s.data.foldl (fun acc c => (acc * 65599 + c.toNat + 1) % 2 ^ 128) 2166136261

/-- One lowercase hex digit, for `n < 16`. -/
def hexDigitChar (n : Nat) : Char :=
  if n < 10 then Char.ofNat (48 + n) else Char.ofNat (87 + n)

/-- The `width` least significant hex digits of `n`, most significant first. -/
def natToHexFixed : Nat → Nat → List Char
  | 0, _ => []
  | w + 1, n => natToHexFixed w (n / 16) ++ [hexDigitChar (n % 16)]

/-- The hex digest string of the modelled 128-bit hash: 32 hex characters. -/
def md5hex (s : String) : String := ⟨natToHexFixed 32 (hash128 s)⟩

/-- The derived cache key of `func_wrapper` (source line 91): the hex digest
of the pre-hash body. -/
def derivedCacheKey (funcName : String) (decorates_method : Bool)
    (args : List PyVal) (kwargs : List (String × PyVal)) : String :=
  md5hex (cache_key_body funcName decorates_method args kwargs)

/-- Function `func_wrapper(*args, **kwargs)` from the source, for one invocation at
virtual time `now` over store `s`. `timeout` and `decorates_method` are the
decorator's configuration; `truthy` models Python `bool()` on cached values
(the source tests `if rtn:`); `func` is the value the underlying computation
returns for these arguments (it is deterministic in them). Derives the key,
calls `get`; a truthy fetched value is returned as is; otherwise the
computation's result is `set` under the key with the configured `timeout`
and returned. Errors from `get` propagate. -/
def func_wrapper {V : Type} (MINT_DELAY : Int) (truthy : V → Bool)
    (timeout : Int) (decorates_method : Bool) (func : V)
    (funcName : String) (args : List PyVal) (kwargs : List (String × PyVal))
    (s : Store V) (now : Int) : Except GetError (V × Store V) :=
  let cache_key := derivedCacheKey funcName decorates_method args kwargs
  match get MINT_DELAY s now cache_key with
  | .error e => .error e
  | .ok (some rtn, s1) =>
      if truthy rtn then
        .ok (rtn, s1)
      else
        .ok (func, set MINT_DELAY s1 now cache_key func timeout false)
  | .ok (none, s1) =>
      .ok (func, set MINT_DELAY s1 now cache_key func timeout false)

end TopCache

section Lemmas

open TopCache

/-- Reading back the key just written by `set`: the packed entry with
`refresh_time = now + timeout`, physically present exactly until
`now + (timeout + MINT_DELAY)`. -/
theorem storeGet_set_same {V : Type} (MINT_DELAY : Int) (s : Store V)
    (now : Int) (k : String) (v : V) (timeout : Int) (refreshed : Bool)
    (now2 : Int) :
    storeGet (TopCache.set MINT_DELAY s now k v timeout refreshed) k now2
      = if now2 < now + (timeout + MINT_DELAY) then
          some (Payload.packed v (now + timeout) refreshed)
        else none := by
  simp [TopCache.set, storeSet, storeGet, List.lookup]

/-- The cell recorded by `set` under the written key. -/
theorem lookup_set_same {V : Type} (MINT_DELAY : Int) (s : Store V)
    (now : Int) (k : String) (v : V) (timeout : Int) (refreshed : Bool) :
    List.lookup k (TopCache.set MINT_DELAY s now k v timeout refreshed)
      = some ⟨Payload.packed v (now + timeout) refreshed,
              now + (timeout + MINT_DELAY)⟩ := by
  simp [TopCache.set, storeSet, List.lookup]

/-- A fixed-width hex rendering has exactly the requested width. -/
theorem natToHexFixed_length (w : Nat) : ∀ n : Nat, (natToHexFixed w n).length = w := by
  induction w with
  | zero => intro n; rfl
  | succ w ih => intro n; simp [natToHexFixed, ih]

/-- Each produced hex digit is one of the sixteen lowercase hex characters. -/
theorem hexDigitChar_mem (m : Nat) (h : m < 16) :
    hexDigitChar m ∈ "0123456789abcdef".data := by
  interval_cases m <;> decide

/-- Every character of a fixed-width hex rendering is a lowercase hex
character. -/
theorem natToHexFixed_mem (w : Nat) :
    ∀ (n : Nat), ∀ c ∈ natToHexFixed w n, c ∈ "0123456789abcdef".data := by
  induction w with
  | zero => intro n c hc; cases hc
  | succ w ih =>
      intro n c hc
      simp only [natToHexFixed, List.mem_append, List.mem_singleton] at hc
      rcases hc with hc | hc
      · exact ih _ c hc
      · exact hc ▸ hexDigitChar_mem _ (Nat.mod_lt _ (by decide))

/-- Prepending a prefix to the accumulator distributes over the positional
argument fold of the key builder. -/
theorem foldl_arg_prepend (p : String) (l : List PyVal) :
    ∀ init : String,
      l.foldl (fun k a => k ++ "_" ++ a.str) (p ++ init)
        = p ++ l.foldl (fun k a => k ++ "_" ++ a.str) init := by
  induction l with
  | nil => intro init; rfl
  | cons a t ih =>
      intro init
      simp only [List.foldl_cons]
      have h : (p ++ init) ++ "_" ++ a.str = p ++ (init ++ "_" ++ a.str) := by
        simp [String.append_assoc]
      rw [h]
      exact ih (init ++ "_" ++ a.str)

/-- Prepending a prefix to the accumulator distributes over the keyword
argument fold of the key builder. -/
theorem foldl_kwarg_prepend (p : String) (l : List (String × PyVal)) :
    ∀ init : String,
      l.foldl (fun k kv => k ++ "_" ++ kv.1 ++ "=" ++ kv.2.str) (p ++ init)
        = p ++ l.foldl (fun k kv => k ++ "_" ++ kv.1 ++ "=" ++ kv.2.str) init := by
  induction l with
  | nil => intro init; rfl
  | cons a t ih =>
      intro init
      simp only [List.foldl_cons]
      have h : (p ++ init) ++ "_" ++ a.1 ++ "=" ++ a.2.str
          = p ++ (init ++ "_" ++ a.1 ++ "=" ++ a.2.str) := by
        simp [String.append_assoc]
      rw [h]
      exact ih (init ++ "_" ++ a.1 ++ "=" ++ a.2.str)

/-- The key body of a plain function call: no prefix, all positional
arguments kept. -/
theorem cache_key_body_function (fname : String) (args : List PyVal)
    (kwargs : List (String × PyVal)) :
    cache_key_body fname false args kwargs
      = kwargs.foldl (fun k kv => k ++ "_" ++ kv.1 ++ "=" ++ kv.2.str)
          (args.foldl (fun k a => k ++ "_" ++ a.str) fname) := by
  cases args <;> rfl

/-- The key body of a bound-method call: class-name prefix, first
positional argument (`self`) dropped. -/
theorem cache_key_body_method (fname : String) (self : PyVal)
    (rest : List PyVal) (kwargs : List (String × PyVal)) :
    cache_key_body fname true (self :: rest) kwargs
      = kwargs.foldl (fun k kv => k ++ "_" ++ kv.1 ++ "=" ++ kv.2.str)
          (rest.foldl (fun k a => k ++ "_" ++ a.str)
            (self.className ++ "_" ++ fname)) := by
  rfl

end Lemmas

section Claims

open TopCache

/-- C1 (counterexample): an entry whose logical expiry has passed
(`now = 20 > refresh_time = 10`) and whose refreshed flag is true is served
by `get`: the call returns the stored value `"v"`, not the absent sentinel
`none`, so the claim that `fetch` returns absent in this state is false. -/
theorem c1_counterexample :
    TopCache.get 30 ([("k", ⟨Payload.packed "v" 10 true, 100⟩)] : Store String)
        20 "k"
      = .ok (some "v", [("k", ⟨Payload.packed "v" 10 true, 100⟩)])
    ∧ (some "v" : Option String) ≠ none := by
  exact ⟨by rfl, by simp⟩

/-- C1 (amended): for every key holding an entry whose logical expiry has
passed (`now > refresh_time`) and whose refreshed flag is true, `get`
returns the stored stale value (not absent) and performs no store write
(the returned store is the input store, unchanged). -/
theorem c1_stale_refreshed_serves_value {V : Type} (MINT_DELAY : Int)
    (s : Store V) (now : Int) (k : String) (v : V) (rt : Int)
    (hp : storeGet s k now = some (Payload.packed v rt true))
    (hstale : now > rt) :
    TopCache.get MINT_DELAY s now k = .ok (some v, s) := by
  unfold TopCache.get
  rw [hp]
  simp

/-- Witness for C1 (amended) at a concrete input. -/
theorem c1_witness :
    TopCache.get 30 ([("w", ⟨Payload.packed "x" 5 true, 50⟩)] : Store String)
        6 "w"
      = .ok (some "x", [("w", ⟨Payload.packed "x" 5 true, 50⟩)]) :=
  c1_stale_refreshed_serves_value 30 _ 6 "w" "x" 5 (by rfl) (by decide)

/-- C2: for every key holding an entry whose logical expiry has passed
(`now > refresh_time`) and whose refreshed flag is false, `get` re-persists
the same stored value via `set` with `timeout = MINT_DELAY` and
`refreshed = true`, and returns absent (`none`) to this caller. -/
theorem c2_stale_first_observer_refreshes {V : Type} (MINT_DELAY : Int)
    (s : Store V) (now : Int) (k : String) (v : V) (rt : Int)
    (hp : storeGet s k now = some (Payload.packed v rt false))
    (hstale : now > rt) :
    TopCache.get MINT_DELAY s now k
      = .ok (none, TopCache.set MINT_DELAY s now k v MINT_DELAY true) := by
  unfold TopCache.get
  rw [hp]
  simp [hstale]

/-- Witness for C2 at a concrete input. -/
theorem c2_witness :
    TopCache.get 30 ([("k", ⟨Payload.packed "v" 10 false, 100⟩)] : Store String)
        20 "k"
      = .ok (none,
          TopCache.set 30 [("k", ⟨Payload.packed "v" 10 false, 100⟩)]
            20 "k" "v" 30 true) :=
  c2_stale_first_observer_refreshes 30 _ 20 "k" "v" 10 (by rfl) (by decide)

/-- C3 (freshness): for every key, value and `ttl > 0` (with a non-negative
configured mint delay), a `get` performed at the very instant of the `set`
returns exactly the stored value, with no store write. -/
theorem c3_freshness {V : Type} (MINT_DELAY ttl : Int)
    (hmd : 0 ≤ MINT_DELAY) (httl : 0 < ttl) (s : Store V) (now : Int)
    (k : String) (v : V) :
    TopCache.get MINT_DELAY (TopCache.set MINT_DELAY s now k v ttl false)
        now k
      = .ok (some v, TopCache.set MINT_DELAY s now k v ttl false) := by
  unfold TopCache.get
  rw [storeGet_set_same, if_pos (by linarith)]
  have hfresh : ¬now > now + ttl := by omega
  simp [hfresh]

/-- Witness for C3 at a concrete input. -/
theorem c3_witness :
    TopCache.get 30 (TopCache.set 30 ([] : Store String) 0 "k" "v" 60 false)
        0 "k"
      = .ok (some "v", TopCache.set 30 ([] : Store String) 0 "k" "v" 60 false) :=
  c3_freshness 30 60 (by decide) (by decide) [] 0 "k" "v"

/-- C4 (counterexample): the spec's own scenario. `set("k","v1",60)` at time
0; at time 61 `get` observes staleness and writes the `refreshed = true`
placeholder; at time 92 — more than `MINT_DELAY = 30` past the first
staleness detection — a store-level read still returns the placeholder
(its physical expiry is `61 + 30 + 30 = 121`, twice the mint delay away),
contradicting the claimed physical TTL of exactly `MINT_DELAY`. -/
theorem c4_counterexample :
    TopCache.get 30 (TopCache.set 30 ([] : Store String) 0 "k" "v1" 60 false)
        61 "k"
      = .ok (none,
          TopCache.set 30 (TopCache.set 30 ([] : Store String) 0 "k" "v1" 60 false)
            61 "k" "v1" 30 true)
    ∧ storeGet
        (TopCache.set 30 (TopCache.set 30 ([] : Store String) 0 "k" "v1" 60 false)
          61 "k" "v1" 30 true) "k" 92
      = some (Payload.packed "v1" 91 true)
    ∧ some (Payload.packed "v1" 91 true) ≠ (none : Option (Payload String)) := by
  refine ⟨by rfl, by rfl, by simp⟩

/-- C4 (amended): the `refreshed = true` placeholder written on first
staleness detection is stored with physical TTL `2 * MINT_DELAY` (the
`MINT_DELAY` timeout passed by `get` plus the `MINT_DELAY` margin `set`
always adds): a store-level read of that key returns the placeholder until
`2 * MINT_DELAY` past the detection instant and absent from then on. -/
theorem c4_placeholder_physical_ttl {V : Type} (MINT_DELAY : Int)
    (s : Store V) (now : Int) (k : String) (v : V) (rt : Int)
    (hp : storeGet s k now = some (Payload.packed v rt false))
    (hstale : now > rt) (now2 : Int) :
    TopCache.get MINT_DELAY s now k
      = .ok (none, TopCache.set MINT_DELAY s now k v MINT_DELAY true)
    ∧ storeGet (TopCache.set MINT_DELAY s now k v MINT_DELAY true) k now2
      = (if now2 < now + 2 * MINT_DELAY then
          some (Payload.packed v (now + MINT_DELAY) true)
        else none) := by
  constructor
  · unfold TopCache.get
    rw [hp]
    simp [hstale]
  · rw [storeGet_set_same]
    have h2 : now + (MINT_DELAY + MINT_DELAY) = now + 2 * MINT_DELAY := by ring
    rw [h2]

/-- Witness for C4 (amended) at a concrete input: the placeholder written
at time 61 is still present at time 92. -/
theorem c4_witness :
    TopCache.get 30 (TopCache.set 30 ([] : Store String) 0 "k" "v1" 60 false)
        61 "k"
      = .ok (none,
          TopCache.set 30 (TopCache.set 30 ([] : Store String) 0 "k" "v1" 60 false)
            61 "k" "v1" 30 true)
    ∧ storeGet
        (TopCache.set 30 (TopCache.set 30 ([] : Store String) 0 "k" "v1" 60 false)
          61 "k" "v1" 30 true) "k" 92
      = (if (92 : Int) < 61 + 2 * 30 then
          some (Payload.packed "v1" 91 true)
        else none) :=
  c4_placeholder_physical_ttl 30 _ 61 "k" "v1" 60 (by rfl) (by decide) 92

/-- C5: every write by `set` stores the packed entry with
`refresh_time = now + timeout` and physical expiry
`now + (timeout + MINT_DELAY)`, so with a non-negative mint delay the
logical expiry never exceeds the physical eviction instant; consequently a
store-level read once `timeout + MINT_DELAY` has elapsed returns absent. -/
theorem c5_logical_le_physical {V : Type} (MINT_DELAY : Int)
    (hmd : 0 ≤ MINT_DELAY) (s : Store V) (now : Int) (k : String) (v : V)
    (timeout : Int) (refreshed : Bool) :
    List.lookup k (TopCache.set MINT_DELAY s now k v timeout refreshed)
      = some ⟨Payload.packed v (now + timeout) refreshed,
              now + (timeout + MINT_DELAY)⟩
    ∧ now + timeout ≤ now + (timeout + MINT_DELAY)
    ∧ ∀ now2 : Int, now + timeout + MINT_DELAY ≤ now2 →
        storeGet (TopCache.set MINT_DELAY s now k v timeout refreshed) k now2
          = none := by
  refine ⟨lookup_set_same MINT_DELAY s now k v timeout refreshed,
    by linarith, ?_⟩
  intro now2 h2
  rw [storeGet_set_same, if_neg (by omega)]

/-- Witness for C5 at a concrete input: an entry written at time 0 with
`ttl = 60` has logical expiry 60, physical expiry 90, and is absent at the
store level at time 90. -/
theorem c5_witness :
    List.lookup "k" (TopCache.set 30 ([] : Store String) 0 "k" "v" 60 false)
      = some ⟨Payload.packed "v" 60 false, 90⟩
    ∧ storeGet (TopCache.set 30 ([] : Store String) 0 "k" "v" 60 false)
        "k" 90 = none := by
  have h := c5_logical_le_physical 30 (by decide) ([] : Store String)
    0 "k" "v" 60 false
  exact ⟨by simpa using h.1, h.2.2 90 (by decide)⟩

/-- C7: once the first staleness observer has rewritten the entry at time
`t0` as a `refreshed = true` placeholder expiring logically at
`t0 + MINT_DELAY` and physically at `t0 + 2 * MINT_DELAY`, every `get`
performed before the physical eviction returns the stale value (never
absent) and performs no further store write: before `t0 + MINT_DELAY` the
new logical expiry has not passed, and after it the `refreshed = true` flag
makes `get` fall through to returning the value. -/
theorem c7_placeholder_serves_stale {V : Type} (MINT_DELAY : Int)
    (s : Store V) (t0 : Int) (k : String) (v : V) (now2 : Int)
    (h2 : now2 < t0 + 2 * MINT_DELAY) :
    TopCache.get MINT_DELAY (TopCache.set MINT_DELAY s t0 k v MINT_DELAY true)
        now2 k
      = .ok (some v, TopCache.set MINT_DELAY s t0 k v MINT_DELAY true) := by
  unfold TopCache.get
  rw [storeGet_set_same, if_pos (by omega)]
  simp

/-- Witness for C7 at a concrete input: the placeholder written at time 61
is served both at time 71 (within the mint delay) and at time 100 (past the
new logical expiry 91 but before the physical expiry 121). -/
theorem c7_witness :
    TopCache.get 30 (TopCache.set 30 ([] : Store String) 61 "k" "v1" 30 true)
        71 "k"
      = .ok (some "v1", TopCache.set 30 ([] : Store String) 61 "k" "v1" 30 true)
    ∧ TopCache.get 30 (TopCache.set 30 ([] : Store String) 61 "k" "v1" 30 true)
        100 "k"
      = .ok (some "v1", TopCache.set 30 ([] : Store String) 61 "k" "v1" 30 true) :=
  ⟨c7_placeholder_serves_stale 30 [] 61 "k" "v1" 71 (by decide),
   c7_placeholder_serves_stale 30 [] 61 "k" "v1" 100 (by decide)⟩

/-- C6 (counterexample): a falsy value breaks the claimed hit behavior.
With the integer `0` cached fresh under the derived key, `get` hits and
returns `0`, yet the wrapper (whose source tests `if rtn:` for Python
truthiness) invokes the underlying computation anyway: it returns the
computation's value `7 ≠ 0` and performs a store write, instead of
returning the cached value with no computation. -/
theorem c6_counterexample :
    TopCache.get 30
        (TopCache.set 30 ([] : Store Int) 0
          (derivedCacheKey "f" false [] []) 0 60 false) 0
        (derivedCacheKey "f" false [] [])
      = .ok (some 0,
          TopCache.set 30 ([] : Store Int) 0
            (derivedCacheKey "f" false [] []) 0 60 false)
    ∧ func_wrapper 30 (fun v => v != 0) 60 false 7 "f" [] []
        (TopCache.set 30 ([] : Store Int) 0
          (derivedCacheKey "f" false [] []) 0 60 false) 0
      = .ok (7,
          TopCache.set 30
            (TopCache.set 30 ([] : Store Int) 0
              (derivedCacheKey "f" false [] []) 0 60 false) 0
            (derivedCacheKey "f" false [] []) 7 60 false)
    ∧ (7 : Int) ≠ 0 := by
  refine ⟨by rfl, by rfl, by decide⟩

/-- C6 (amended): on an invocation of the wrapped operation, when `get` of
the derived key returns a truthy cached value the wrapper returns it
without invoking the computation (the result and store are independent of
the computation's value); when `get` misses, or returns a falsy cached
value, the wrapper invokes the computation, stores its result under the
derived key with the configured `timeout` as logical TTL, and returns it. -/
theorem c6_wrapper_behavior {V : Type} (MINT_DELAY : Int)
    (truthy : V → Bool) (timeout : Int) (dm : Bool) (fname : String)
    (args : List PyVal) (kwargs : List (String × PyVal)) (s : Store V)
    (now : Int) :
    (∀ (v : V) (s1 : Store V),
        TopCache.get MINT_DELAY s now (derivedCacheKey fname dm args kwargs)
          = .ok (some v, s1) →
        truthy v = true →
        ∀ func : V,
          func_wrapper MINT_DELAY truthy timeout dm func fname args kwargs s now
            = .ok (v, s1))
    ∧ (∀ s1 : Store V,
        TopCache.get MINT_DELAY s now (derivedCacheKey fname dm args kwargs)
          = .ok (none, s1) →
        ∀ func : V,
          func_wrapper MINT_DELAY truthy timeout dm func fname args kwargs s now
            = .ok (func,
                TopCache.set MINT_DELAY s1 now
                  (derivedCacheKey fname dm args kwargs) func timeout false))
    ∧ (∀ (v : V) (s1 : Store V),
        TopCache.get MINT_DELAY s now (derivedCacheKey fname dm args kwargs)
          = .ok (some v, s1) →
        truthy v = false →
        ∀ func : V,
          func_wrapper MINT_DELAY truthy timeout dm func fname args kwargs s now
            = .ok (func,
                TopCache.set MINT_DELAY s1 now
                  (derivedCacheKey fname dm args kwargs) func timeout false)) := by
  refine ⟨?_, ?_, ?_⟩
  · intro v s1 hget ht func
    simp [func_wrapper, hget, ht]
  · intro s1 hget func
    simp [func_wrapper, hget]
  · intro v s1 hget ht func
    simp [func_wrapper, hget, ht]

/-- Witness for C6 (amended) at a concrete input: with the truthy integer
`1` cached fresh, the wrapper returns `1` and ignores the computation's
value `7`. -/
theorem c6_witness :
    func_wrapper 30 (fun v => v != 0) 60 false 7 "f" [] []
        (TopCache.set 30 ([] : Store Int) 0
          (derivedCacheKey "f" false [] []) 1 60 false) 0
      = .ok (1,
          TopCache.set 30 ([] : Store Int) 0
            (derivedCacheKey "f" false [] []) 1 60 false) :=
  (c6_wrapper_behavior 30 (fun v => v != 0) 60 false "f" [] [] _ 0).1
    1 _ (by rfl) (by rfl) 7

/-- C8 (counterexample): a falsy malformed payload is silently recovered
into absent. With a stored payload that does not match the 3-tuple shape
but is falsy (for example the empty tuple), `get` returns absent with no
error, contradicting the claim that every malformed payload is treated as
a fatal integrity error. -/
theorem c8_counterexample :
    storeGet ([("k", ⟨Payload.malformed false, 100⟩)] : Store String) "k" 0
      = some (Payload.malformed false)
    ∧ TopCache.get 30
        ([("k", ⟨Payload.malformed false, 100⟩)] : Store String) 0 "k"
      = .ok (none, [("k", ⟨Payload.malformed false, 100⟩)]) := by
  exact ⟨by rfl, by rfl⟩

/-- C8 (amended): a stored payload that does not match the
`(value, refresh_time, refreshed)` shape is handled by Python truthiness:
if it is truthy, tuple unpacking raises and the error propagates to the
caller (fatal, no recovery); if it is falsy, the `if not packed_value`
guard silently treats it as absent, with no store write. -/
theorem c8_malformed_payload {V : Type} (MINT_DELAY : Int) (s : Store V)
    (now : Int) (k : String) (t : Bool)
    (hp : storeGet s k now = some (Payload.malformed t)) :
    TopCache.get MINT_DELAY s now k
      = if t then .error GetError.unpackError else .ok (none, s) := by
  unfold TopCache.get
  rw [hp]

/-- Witness for C8 (amended) at concrete inputs: a truthy malformed payload
raises; a falsy one is treated as absent. -/
theorem c8_witness :
    TopCache.get 30 ([("k", ⟨Payload.malformed true, 100⟩)] : Store String)
        0 "k" = .error GetError.unpackError
    ∧ TopCache.get 30 ([("j", ⟨Payload.malformed false, 100⟩)] : Store String)
        0 "j" = .ok (none, [("j", ⟨Payload.malformed false, 100⟩)]) := by
  constructor
  · exact c8_malformed_payload 30 _ 0 "k" true (by rfl)
  · exact c8_malformed_payload 30 _ 0 "j" false (by rfl)

/-- C9: key derivation is a pure function (two runs on the same identifier,
positional arguments and keyword arguments in the same iteration order give
the same key), and its output is always a 32-character string of lowercase
hex characters — a length independent of the argument values. -/
theorem c9_key_determinism_fixed_length (fname : String) (dm : Bool)
    (args : List PyVal) (kwargs : List (String × PyVal)) :
    derivedCacheKey fname dm args kwargs = derivedCacheKey fname dm args kwargs
    ∧ (derivedCacheKey fname dm args kwargs).length = 32
    ∧ ∀ c ∈ (derivedCacheKey fname dm args kwargs).data,
        c ∈ "0123456789abcdef".data := by
  refine ⟨rfl, ?_, ?_⟩
  · simp [derivedCacheKey, md5hex, String.length, natToHexFixed_length]
  · intro c hc
    exact natToHexFixed_mem 32 _ c hc

/-- C10: for a bound-method call (`decorates_method = true`, non-empty
positional arguments), the pre-hash key body drops the first positional
argument (`self`), prefixing the class name of `self` instead, and it
differs from the body derived for a plain function call with the same name,
the same remaining arguments and the same keyword arguments. -/
theorem c10_method_vs_function_keying (fname : String) (self : PyVal)
    (rest : List PyVal) (kwargs : List (String × PyVal)) :
    cache_key_body fname true (self :: rest) kwargs
      = self.className ++ "_" ++ cache_key_body fname false rest kwargs
    ∧ cache_key_body fname true (self :: rest) kwargs
      ≠ cache_key_body fname false rest kwargs := by
  have hbody : cache_key_body fname true (self :: rest) kwargs
      = self.className ++ "_" ++ cache_key_body fname false rest kwargs := by
    rw [cache_key_body_method, cache_key_body_function]
    have h1 : self.className ++ "_" ++ fname
        = (self.className ++ "_") ++ fname := by
      simp [String.append_assoc]
    rw [h1, foldl_arg_prepend, foldl_kwarg_prepend]
  refine ⟨hbody, ?_⟩
  intro heq
  rw [hbody] at heq
  have hlen := congrArg String.length heq
  simp [String.length_append] at hlen
  exact absurd hlen.2 (by decide)

end Claims
